import Mathlib

/-!
Shallow embedding of the food-recognition edge function
(`supabase/functions/.../index.ts`, "recognize-food"): the nutrition
reference table, the portion model, the detection normalizer (the grouping
loop in `serve`), the nutrition estimator (`calculateNutrition`), the
detector adapter (`runCNNDetection` / `mockCNNDetection`) and the
orchestrator (`serve`).

JavaScript numbers are modelled as exact rationals (ℚ); `Math.round` is
half-up rounding to an integer, matching JS `Math.round` on all inputs.
JS object insertion order (the order `Object.entries` yields for the
non-integer string keys used here) is modelled by an association list that
appends new keys at the end.
-/

/-- One raw detection from the external detector:
`{food_name, confidence, area_ratio}`. -/
structure Detection where
  food_name : String
  confidence : ℚ
  area_ratio : ℚ
deriving DecidableEq

/-- The `{confidence, area_ratio}` record pushed into `groupedDetections`
by `serve` (the detection minus its label). -/
structure GEntry where
  confidence : ℚ
  area_ratio : ℚ
deriving DecidableEq

/-- One row of the nutrition reference table `NUTRITION_DATA`. -/
structure NutritionInfo where
  calories_per_100g : ℚ
  carbs_g : ℚ
  protein_g : ℚ
  fat_g : ℚ
  gi_value : ℚ
  gi_category : String
deriving DecidableEq

/-- The `FoodItem` interface of the source: one recognized food with its
nutrition estimate. `calories` is an integer because it is produced by
`Math.round`; the macro fields carry one decimal. -/
structure FoodItem where
  name : String
  portion_size : String
  portion_grams : ℚ
  calories : ℤ
  protein : ℚ
  carbs : ℚ
  fat : ℚ
  confidence : ℚ
deriving DecidableEq

/-- `NUTRITION_DATA`: the static per-100g table, transcribed row by row
from the source. -/
def NUTRITION_DATA : List (String × NutritionInfo) :=
  [ ("bhatura", ⟨330, 50, 7, 12, 70, "High"⟩)
  , ("chapathi", ⟨299, 46, 79/10, 92/10, 45, "Low"⟩)
  , ("cooked_rice", ⟨130, 28, 27/10, 3/10, 72, "High"⟩)
  , ("dal", ⟨116, 20, 9, 1, 30, "Low"⟩)
  , ("dosa", ⟨168, 30, 4, 37/10, 55, "Medium"⟩)
  , ("egg_curry", ⟨155, 4, 11, 11, 45, "Low"⟩)
  , ("groundnut_chutney", ⟨250, 16, 8, 18, 25, "Low"⟩)
  , ("idiyappam", ⟨150, 32, 2, 5/10, 65, "Medium"⟩)
  , ("idli", ⟨58, 12, 2, 4/10, 60, "Medium"⟩)
  , ("jalebi", ⟨459, 60, 4, 22, 75, "High"⟩)
  , ("lemon_rice", ⟨185, 28, 4, 6, 60, "Medium"⟩)
  , ("pongal", ⟨160, 27, 5, 4, 60, "Medium"⟩)
  , ("pulihora", ⟨180, 30, 4, 6, 60, "Medium"⟩)
  , ("sambar", ⟨90, 12, 4, 3, 35, "Low"⟩)
  , ("samosa", ⟨320, 35, 7, 18, 70, "High"⟩)
  , ("umpa", ⟨190, 35, 4, 6, 65, "Medium"⟩)
  , ("uttampam", ⟨170, 28, 4, 4, 55, "Medium"⟩)
  , ("vada", ⟨320, 35, 7, 18, 70, "High"⟩)
  , ("beetroot", ⟨43, 10, 16/10, 2/10, 64, "Medium"⟩)
  , ("brinjal", ⟨25, 6, 1, 2/10, 15, "Low"⟩)
  , ("capsicum", ⟨31, 6, 1, 3/10, 15, "Low"⟩)
  , ("carrot", ⟨41, 10, 9/10, 2/10, 35, "Low"⟩)
  , ("cucumber", ⟨15, 36/10, 7/10, 1/10, 15, "Low"⟩)
  , ("groundnuts", ⟨567, 16, 26, 49, 14, "Low"⟩)
  , ("ladys_finger", ⟨33, 7, 19/10, 2/10, 20, "Low"⟩)
  , ("onion", ⟨40, 9, 11/10, 1/10, 10, "Low"⟩)
  , ("paneer", ⟨265, 12/10, 18, 20, 27, "Low"⟩)
  , ("raw_rice", ⟨365, 80, 75/10, 7/10, 0, "Low"⟩)
  , ("spinach", ⟨23, 36/10, 29/10, 4/10, 15, "Low"⟩)
  , ("tomato", ⟨18, 39/10, 9/10, 2/10, 15, "Low"⟩) ]

/-- `COUNTABLE_FOODS`: average unit weight in grams per countable food.
All weights are nonzero, so the JS truthiness test
`if (COUNTABLE_FOODS[key])` coincides with key presence. -/
def COUNTABLE_FOODS : List (String × ℚ) :=
  [ ("idli", 40), ("vada", 70), ("dosa", 120), ("chapathi", 45)
  , ("samosa", 100), ("bhatura", 100), ("jalebi", 60)
  , ("idiyappam", 50), ("uttampam", 100) ]

/-- `PORTION_GRAMS`: gram weight per area bucket. -/
def PORTION_GRAMS : List (String × ℚ) :=
  [ ("Small", 75), ("Medium", 100), ("Large", 150), ("Very Large", 200) ]

/-- `getPortionFromArea`: the area-bucket if-chain of the source. -/
def getPortionFromArea (areaRatio : ℚ) : String :=
  if areaRatio < 1/10 then "Small"
  else if areaRatio < 1/4 then "Medium"
  else if areaRatio < 1/2 then "Large"
  else "Very Large"

/-- JS `Math.round`: half-up rounding toward positive infinity. -/
def jsRound (q : ℚ) : ℤ := ⌊q + 1/2⌋

/-- The source's one-decimal rounding idiom `Math.round(x * 10) / 10`. -/
def round1 (q : ℚ) : ℚ := (jsRound (q * 10) : ℚ) / 10

/-- JS `String.prototype.toLowerCase` (ASCII suffices for the labels in
play). -/
def lowerString (s : String) : String := String.mk (s.data.map Char.toLower)

/-- JS `replace(/\s+/g, "_")` on a character list: every maximal run of
whitespace becomes a single underscore. -/
def squashWs : List Char → List Char
  | [] => []
  | [c] => if c.isWhitespace then ['_'] else [c]
  | c₁ :: c₂ :: rest =>
    if c₁.isWhitespace then
      if c₂.isWhitespace then squashWs (c₂ :: rest)
      else '_' :: squashWs (c₂ :: rest)
    else c₁ :: squashWs (c₂ :: rest)

/-- The estimator's key normalization:
`foodName.toLowerCase().replace(/\s+/g, "_")`. -/
def normalizeFoodLabel (s : String) : String :=
  String.mk (squashWs (s.data.map Char.toLower))

/-- `calculateNutrition(foodName, count, areaRatio)`: the nutrition
estimator, translated clause by clause from the source. -/
def calculateNutrition (foodName : String) (count : ℕ) (areaRatio : ℚ) : FoodItem :=
  let normalized := normalizeFoodLabel foodName
  match NUTRITION_DATA.lookup normalized with
  | none =>
    { name := foodName
      portion_size := "1 portion"
      portion_grams := 100
      calories := 200
      protein := 10
      carbs := 30
      fat := 5
      confidence := 1/2 }
  | some nutrition =>
    let pg : ℚ × String :=
      match COUNTABLE_FOODS.lookup normalized with
      | some unitWeight => ((count : ℚ) * unitWeight, toString count ++ " pieces")
      | none =>
        let portion := getPortionFromArea areaRatio
        ((PORTION_GRAMS.lookup portion).getD 0, portion ++ " portion")
    let multiplier := pg.1 / 100
    { name := foodName
      portion_size := pg.2
      portion_grams := pg.1
      calories := jsRound (nutrition.calories_per_100g * multiplier)
      protein := round1 (nutrition.protein_g * multiplier)
      carbs := round1 (nutrition.carbs_g * multiplier)
      fat := round1 (nutrition.fat_g * multiplier)
      confidence := 85/100 }

example : calculateNutrition "dal" 1 (3/10) =
    ⟨"dal", "Large portion", 150, 174, 27/2, 30, 3/2, 17/20⟩ := by
  have hn : normalizeFoodLabel "dal" = "dal" := by decide
  have hb : getPortionFromArea (3/10) = "Large" := by norm_num [getPortionFromArea]
  have ha : ("Large" ++ " portion" : String) = "Large portion" := by decide
  simp [calculateNutrition, hn, hb, ha, NUTRITION_DATA, COUNTABLE_FOODS, PORTION_GRAMS,
    List.lookup, FoodItem.mk.injEq]
  norm_num [jsRound, round1]

example : calculateNutrition "idli" 3 (3/10) =
    ⟨"idli", "3 pieces", 120, 70, 24/10, 144/10, 5/10, 17/20⟩ := by
  have hn : normalizeFoodLabel "idli" = "idli" := by decide
  have ha : toString (3:ℕ) ++ " pieces" = "3 pieces" := by decide
  simp [calculateNutrition, hn, ha, NUTRITION_DATA, COUNTABLE_FOODS, PORTION_GRAMS,
    List.lookup, FoodItem.mk.injEq]
  norm_num [jsRound, round1]

example : calculateNutrition "pho" 1 (3/10) =
    ⟨"pho", "1 portion", 100, 200, 10, 30, 5, 1/2⟩ := by
  have hn : normalizeFoodLabel "pho" = "pho" := by decide
  simp [calculateNutrition, hn, NUTRITION_DATA, List.lookup, FoodItem.mk.injEq]

/-- The grouping key used by `serve`:
`detection.food_name.toLowerCase()` — lowercase only, no trimming and no
whitespace replacement. -/
def detKey (d : Detection) : String := lowerString d.food_name

/-- The record `serve` pushes into the group of `detKey d`. -/
def detEntry (d : Detection) : GEntry := ⟨d.confidence, d.area_ratio⟩

/-- All entries a detection list contributes to the group of key `k`, in
input order. -/
def entriesFor (ds : List Detection) (k : String) : List GEntry :=
  (ds.filter (fun d => detKey d == k)).map detEntry

/-- One step of the grouping loop: push entry `e` onto the bucket of `key`
if a bucket exists, else append a fresh bucket at the end (JS object
insertion order). -/
def addDetection : List (String × List GEntry) → String → GEntry → List (String × List GEntry)
  | [], key, e => [(key, [e])]
  | p :: rest, key, e =>
    if p.1 = key then (p.1, p.2 ++ [e]) :: rest
    else p :: addDetection rest key e

/-- The `detections.forEach` loop of `serve`, with explicit accumulator. -/
def groupGo : List (String × List GEntry) → List Detection → List (String × List GEntry)
  | acc, [] => acc
  | acc, d :: rest => groupGo (addDetection acc (detKey d) (detEntry d)) rest

/-- `groupedDetections` as built by `serve` (`Object.entries` order =
insertion order for these non-integer string keys). -/
def groupDetections (ds : List Detection) : List (String × List GEntry) :=
  groupGo [] ds

/-- `detections.reduce((sum, d) => sum + d.confidence, 0) / detections.length`. -/
def avgConf (l : List GEntry) : ℚ :=
  (l.map GEntry.confidence).sum / (l.length : ℚ)

/-- `Math.max(...detections.map(d => d.area_ratio))`; groups are never
empty, so the empty-list value is irrelevant (0 here, -Infinity in JS). -/
def maxArea : List GEntry → ℚ
  | [] => 0
  | e :: rest => rest.foldl (fun m x => max m x.area_ratio) e.area_ratio

/-- A normalized detection group (§4.3's `DetectionGroup`), carrying the
aggregates `serve` computes per bucket. -/
structure DetectionGroup where
  food_key : String
  count : ℕ
  avg_confidence : ℚ
  max_area_ratio : ℚ
deriving DecidableEq

/-- The detection normalizer (the spec calls it `normalize`; that name is taken in Mathlib): grouping plus the per-group aggregation
`serve` performs (lines computing avgConfidence, maxAreaRatio, count). -/
def normalizeDetections (ds : List Detection) : List DetectionGroup :=
  (groupDetections ds).map (fun p => ⟨p.1, p.2.length, avgConf p.2, maxArea p.2⟩)

/-- The body of the `Object.entries(groupedDetections).forEach` loop:
estimate nutrition for a bucket, then unconditionally overwrite the
estimator's confidence with the group average
(`nutrition.confidence = avgConfidence`). -/
def mkItemFromGroup (p : String × List GEntry) : FoodItem :=
  let avgConfidence := avgConf p.2
  let maxAreaRatio := maxArea p.2
  let count := p.2.length
  let nutrition := calculateNutrition p.1 count maxAreaRatio
  { nutrition with confidence := avgConfidence }

/-- The deterministic core of `serve`: detections to recognized food
items. -/
def pipelineFoods (ds : List Detection) : List FoodItem :=
  (groupDetections ds).map mkItemFromGroup

/-- The possible behaviors of the external Python detection API as seen
through `fetch`: a network error (`fetch` throws), a non-success HTTP
status (`!response.ok`), a body that is not valid JSON (`response.json()`
throws), or a JSON body with a `success` flag and an optional `detections`
array. -/
inductive PyResponse where
  | netError : PyResponse
  | notOk : ℕ → PyResponse
  | badJson : PyResponse
  | payload : Bool → Option (List Detection) → PyResponse
deriving DecidableEq

/-- `mockCNNDetection`: the fixed fallback detection list. -/
def mockCNNDetection : List Detection :=
  [ ⟨"Idli", 92/100, 15/100⟩
  , ⟨"Sambar", 87/100, 35/100⟩
  , ⟨"Chapathi", 78/100, 20/100⟩ ]

/-- `runCNNDetection`: the detector adapter, as a total function of the
external service's behavior. The JS truthiness test
`result.success && result.detections` passes for any present `detections`
array, including an empty one (`[]` is truthy in JS). -/
def runCNNDetection : PyResponse → List Detection
  | .netError => mockCNNDetection
  | .notOk _ => mockCNNDetection
  | .badJson => mockCNNDetection
  | .payload success detections =>
    match success, detections with
    | true, some ds => ds
    | _, _ => mockCNNDetection

/-- The request body of the orchestrator, after `req.json()`:
either `req.json()` threw (carrying the thrown error's message), or it
produced an object whose `image` field is absent or some string. -/
inductive ReqBody where
  | parseError : String → ReqBody
  | body : Option String → ReqBody

/-- The JSON response surface of `serve`: HTTP status plus the `success`,
`error` and `foods` fields of the serialized body (absent fields are
`none`); each returned food carries its generated id. -/
structure HttpResponse where
  status : ℕ
  success : Option Bool
  error : Option String
  foods : Option (List (String × FoodItem))

/-- `serve`'s request handler (POST path; the CORS preflight branch
returns a fixed empty response and is outside the JSON contract). `now`
abstracts `Date.now()` used for ids. A missing or empty `image` string is
falsy and yields the 400 response; a `req.json()` exception is caught by
the catch block and yields the 500 response with the error's message; the
pipeline itself is total so no other exception path exists. -/
def serveHandler (now : ℕ) (req : ReqBody) (ext : PyResponse) : HttpResponse :=
  match req with
  | .parseError msg => ⟨500, some false, some msg, none⟩
  | .body none => ⟨400, none, some "No image provided", none⟩
  | .body (some image) =>
    if image = "" then ⟨400, none, some "No image provided", none⟩
    else
      let detections := runCNNDetection ext
      let foods := pipelineFoods detections
      ⟨200, some true, none,
        some (foods.enum.map
          (fun p => ("food_" ++ toString now ++ "_" ++ toString p.1, p.2)))⟩

/-- A well-formed orchestrator response: either a success payload with a
foods list and no error, or a non-success response carrying an error
string and no foods. -/
def wellFormedResp (r : HttpResponse) : Prop :=
  (r.success = some true ∧ r.error = none ∧ r.foods.isSome) ∨
  (r.success ≠ some true ∧ r.error.isSome ∧ r.foods = none)

/-- Remove leading and trailing whitespace from a character list (the
spec's "trim"). -/
def trimChars (l : List Char) : List Char :=
  ((l.dropWhile Char.isWhitespace).reverse.dropWhile Char.isWhitespace).reverse

/-- Modelled from the spec (§4.3): the spec's claimed grouping key —
lowercase, trim, and replace internal whitespace runs with underscores.
Used only to compare the spec's wording with the code's actual grouping
key. -/
def specNormalizeKey (s : String) : String :=
  String.mk (squashWs (trimChars (s.data.map Char.toLower)))

/-! Characterization of the grouping loop: buckets are exactly the
filtered entry lists, and bucket order is first-occurrence order. -/

theorem entriesFor_cons (d : Detection) (ds : List Detection) (k : String) :
    entriesFor (d :: ds) k =
      if detKey d = k then detEntry d :: entriesFor ds k else entriesFor ds k := by
  by_cases h : detKey d = k <;> simp [entriesFor, List.filter_cons, h]

theorem lookup_cons_pair (p : String × List GEntry) (rest : List (String × List GEntry))
    (k : String) :
    List.lookup k (p :: rest) = if k = p.1 then some p.2 else List.lookup k rest := by
  by_cases h : k = p.1
  · have hb : (k == p.1) = true := beq_iff_eq.mpr h
    simp [List.lookup, hb, h]
  · have hb : (k == p.1) = false := beq_eq_false_iff_ne.mpr h
    simp [List.lookup, hb, h]

theorem lookup_addDetection (acc : List (String × List GEntry)) (key : String)
    (e : GEntry) (k : String) :
    List.lookup k (addDetection acc key e) =
      if k = key then some (((List.lookup k acc).getD []) ++ [e])
      else List.lookup k acc := by
  induction acc with
  | nil =>
    rw [show addDetection [] key e = [(key, [e])] from rfl, lookup_cons_pair]
    by_cases h : k = key <;> simp [List.lookup, h]
  | cons p rest ih =>
    by_cases hp : p.1 = key
    · rw [show addDetection (p :: rest) key e = (p.1, p.2 ++ [e]) :: rest from by
        simp [addDetection, hp]]
      by_cases hk : k = p.1
      · simp [lookup_cons_pair, hk, hp]
      · have hk2 : ¬ k = key := fun hc => hk (hc.trans hp.symm)
        simp [lookup_cons_pair, hk, hk2]
    · rw [show addDetection (p :: rest) key e = p :: addDetection rest key e from by
        simp [addDetection, hp]]
      by_cases hk : k = p.1
      · have hk2 : ¬ k = key := fun hc => hp (hk.symm.trans hc)
        simp [lookup_cons_pair, hk, hk2, hp]
      · simp [lookup_cons_pair, hk, ih]

/-- Merge operation describing the effect of a suffix of the loop on one
bucket. -/
def mergeOpt (o : Option (List GEntry)) (l : List GEntry) : Option (List GEntry) :=
  match o with
  | some ms => some (ms ++ l)
  | none => if l = [] then none else some l

theorem mergeOpt_nil (o : Option (List GEntry)) : mergeOpt o [] = o := by
  cases o <;> simp [mergeOpt]

theorem lookup_groupGo (ds : List Detection) : ∀ (acc : List (String × List GEntry))
    (k : String), List.lookup k (groupGo acc ds) = mergeOpt (List.lookup k acc) (entriesFor ds k) := by
  induction ds with
  | nil =>
    intro acc k
    simp [groupGo, entriesFor, mergeOpt_nil]
  | cons d rest ih =>
    intro acc k
    have hstep : groupGo acc (d :: rest) = groupGo (addDetection acc (detKey d) (detEntry d)) rest := rfl
    rw [hstep, ih, lookup_addDetection, entriesFor_cons]
    by_cases hk : k = detKey d
    · subst hk
      simp only [if_pos rfl, if_pos rfl]
      cases hacc : List.lookup (detKey d) acc with
      | none => simp [mergeOpt]
      | some ms => simp [mergeOpt, List.append_assoc]
    · have : ¬ detKey d = k := fun hc => hk hc.symm
      simp [hk, this]

theorem lookup_of_mem_nodupKeys :
    ∀ (l : List (String × List GEntry)) (k : String) (v : List GEntry),
      (l.map Prod.fst).Nodup → (k, v) ∈ l → List.lookup k l = some v := by
  intro l
  induction l with
  | nil => intro k v _ h; cases h
  | cons p rest ih =>
    intro k v hnd hmem
    rw [List.map_cons, List.nodup_cons] at hnd
    rcases List.mem_cons.mp hmem with heq | htail
    · rw [← heq]
      simp [lookup_cons_pair]
    · have hk : ¬ k = p.1 := by
        intro hc
        exact hnd.1 (hc ▸ List.mem_map_of_mem Prod.fst htail)
      rw [lookup_cons_pair, if_neg hk]
      exact ih k v hnd.2 htail

theorem keys_addDetection (acc : List (String × List GEntry)) (key : String) (e : GEntry) :
    (addDetection acc key e).map Prod.fst =
      if key ∈ acc.map Prod.fst then acc.map Prod.fst
      else acc.map Prod.fst ++ [key] := by
  induction acc with
  | nil => simp [addDetection]
  | cons p rest ih =>
    by_cases hp : p.1 = key
    · simp [addDetection, hp]
    · have : ¬ key = p.1 := fun hc => hp hc.symm
      simp [addDetection, hp, ih, this]
      by_cases hmem : key ∈ rest.map Prod.fst <;> simp [hmem, this]

theorem nodupKeys_addDetection (acc : List (String × List GEntry)) (key : String)
    (e : GEntry) (h : (acc.map Prod.fst).Nodup) :
    ((addDetection acc key e).map Prod.fst).Nodup := by
  rw [keys_addDetection]
  by_cases hmem : key ∈ acc.map Prod.fst
  · simpa [hmem] using h
  · simp [hmem, List.nodup_append, h]

theorem nodupKeys_groupGo (ds : List Detection) : ∀ (acc : List (String × List GEntry)),
    (acc.map Prod.fst).Nodup → ((groupGo acc ds).map Prod.fst).Nodup := by
  induction ds with
  | nil => intro acc h; exact h
  | cons d rest ih =>
    intro acc h
    exact ih (addDetection acc (detKey d) (detEntry d))
      (nodupKeys_addDetection acc (detKey d) (detEntry d) h)

theorem mem_groupDetections (ds : List Detection) (k : String) (ms : List GEntry)
    (h : (k, ms) ∈ groupDetections ds) : ms = entriesFor ds k := by
  have hnd : ((groupDetections ds).map Prod.fst).Nodup :=
    nodupKeys_groupGo ds [] (by simp)
  have hl : List.lookup k (groupDetections ds) = some ms :=
    lookup_of_mem_nodupKeys (groupDetections ds) k ms hnd h
  rw [groupDetections, lookup_groupGo ds [] k] at hl
  simp [List.lookup, mergeOpt] at hl
  by_cases he : entriesFor ds k = []
  · simp [he] at hl
  · simp [he] at hl
    exact hl.symm

/-- First-occurrence order of grouping keys not already in `seen`. -/
def occKeys : List String → List Detection → List String
  | _, [] => []
  | seen, d :: rest =>
    if detKey d ∈ seen then occKeys seen rest
    else detKey d :: occKeys (detKey d :: seen) rest

theorem occKeys_congr (ds : List Detection) : ∀ (s₁ s₂ : List String),
    (∀ x, x ∈ s₁ ↔ x ∈ s₂) → occKeys s₁ ds = occKeys s₂ ds := by
  induction ds with
  | nil => intro s₁ s₂ _; rfl
  | cons d rest ih =>
    intro s₁ s₂ h
    by_cases hm : detKey d ∈ s₁
    · simp [occKeys, hm, (h (detKey d)).mp hm, ih s₁ s₂ h]
    · have hm2 : detKey d ∉ s₂ := fun hc => hm ((h (detKey d)).mpr hc)
      simp [occKeys, hm, hm2]
      exact ih (detKey d :: s₁) (detKey d :: s₂) (by intro x; simp [h x])

theorem keys_groupGo (ds : List Detection) : ∀ (acc : List (String × List GEntry)),
    (groupGo acc ds).map Prod.fst = acc.map Prod.fst ++ occKeys (acc.map Prod.fst) ds := by
  induction ds with
  | nil => intro acc; simp [groupGo, occKeys]
  | cons d rest ih =>
    intro acc
    have hstep : groupGo acc (d :: rest) = groupGo (addDetection acc (detKey d) (detEntry d)) rest := rfl
    rw [hstep, ih, keys_addDetection]
    by_cases hm : detKey d ∈ acc.map Prod.fst
    · simp [hm, occKeys]
    · simp only [hm, if_false, occKeys, if_neg hm]
      rw [occKeys_congr rest (acc.map Prod.fst ++ [detKey d]) (detKey d :: acc.map Prod.fst)
        (by intro x; simp [or_comm])]
      simp

/-- The keys of `groupDetections` are the lowercased labels in
first-occurrence order. -/
theorem keys_groupDetections (ds : List Detection) :
    (groupDetections ds).map Prod.fst = occKeys [] ds := by
  rw [groupDetections, keys_groupGo]
  simp

/-! `maxArea` is invariant under permutation of the group members. -/

theorem le_foldl_maxArea (l : List GEntry) : ∀ (a : ℚ),
    a ≤ l.foldl (fun m x => max m x.area_ratio) a := by
  induction l with
  | nil => intro a; simp
  | cons b rest ih =>
    intro a
    exact le_trans (le_max_left a b.area_ratio) (ih (max a b.area_ratio))

theorem mem_le_foldl_maxArea (l : List GEntry) : ∀ (a : ℚ) (e : GEntry), e ∈ l →
    e.area_ratio ≤ l.foldl (fun m x => max m x.area_ratio) a := by
  induction l with
  | nil => intro a e h; cases h
  | cons b rest ih =>
    intro a e h
    rcases List.mem_cons.mp h with heq | htail
    · subst heq
      exact le_trans (le_max_right a e.area_ratio) (le_foldl_maxArea rest _)
    · exact ih (max a b.area_ratio) e htail

theorem foldl_maxArea_choice (l : List GEntry) : ∀ (a : ℚ),
    l.foldl (fun m x => max m x.area_ratio) a = a ∨
      ∃ e ∈ l, l.foldl (fun m x => max m x.area_ratio) a = e.area_ratio := by
  induction l with
  | nil => intro a; left; rfl
  | cons b rest ih =>
    intro a
    have hc : List.foldl (fun m x => max m x.area_ratio) a (b :: rest) =
        List.foldl (fun m x => max m x.area_ratio) (max a b.area_ratio) rest := rfl
    rcases ih (max a b.area_ratio) with h | ⟨e, he, h⟩
    · rcases max_choice a b.area_ratio with hm | hm
      · left
        rw [hc, h, hm]
      · right
        exact ⟨b, List.mem_cons_self b rest, by rw [hc, h, hm]⟩
    · right
      exact ⟨e, List.mem_cons_of_mem b he, by rw [hc, h]⟩

theorem le_maxArea (l : List GEntry) (e : GEntry) (he : e ∈ l) :
    e.area_ratio ≤ maxArea l := by
  cases l with
  | nil => cases he
  | cons b rest =>
    rcases List.mem_cons.mp he with heq | htail
    · subst heq
      exact le_foldl_maxArea rest e.area_ratio
    · exact mem_le_foldl_maxArea rest b.area_ratio e htail

theorem maxArea_mem (l : List GEntry) (h : l ≠ []) :
    ∃ e ∈ l, maxArea l = e.area_ratio := by
  cases l with
  | nil => exact absurd rfl h
  | cons b rest =>
    rcases foldl_maxArea_choice rest b.area_ratio with hc | ⟨e, he, hc⟩
    · exact ⟨b, List.mem_cons_self b rest, hc⟩
    · exact ⟨e, List.mem_cons_of_mem b he, hc⟩

theorem maxArea_perm (l l' : List GEntry) (h : l.Perm l') : maxArea l = maxArea l' := by
  cases l with
  | nil =>
    have : l' = [] := h.nil_eq.symm
    rw [this]
  | cons b rest =>
    have hne : (b :: rest) ≠ ([] : List GEntry) := by simp
    have hne' : l' ≠ [] := by
      intro hc
      rw [hc] at h
      exact hne h.eq_nil
    obtain ⟨e, he, hval⟩ := maxArea_mem (b :: rest) hne
    obtain ⟨e', he', hval'⟩ := maxArea_mem l' hne'
    apply le_antisymm
    · rw [hval]
      exact le_maxArea l' e (h.mem_iff.mp he)
    · rw [hval']
      exact le_maxArea (b :: rest) e' (h.mem_iff.mpr he')

theorem avgConf_perm (l l' : List GEntry) (h : l.Perm l') : avgConf l = avgConf l' := by
  unfold avgConf
  rw [(h.map GEntry.confidence).sum_eq, h.length_eq]

/-! Estimator helper lemmas. -/

theorem calcNutrition_name (foodName : String) (count : ℕ) (r : ℚ) :
    (calculateNutrition foodName count r).name = foodName := by
  cases h : NUTRITION_DATA.lookup (normalizeFoodLabel foodName) with
  | none => simp [calculateNutrition, h]
  | some p =>
    cases hc : COUNTABLE_FOODS.lookup (normalizeFoodLabel foodName) <;>
      simp [calculateNutrition, h, hc]

theorem calcNutrition_countable (key : String) (w : ℚ) (count : ℕ) (r : ℚ)
    (hn : (NUTRITION_DATA.lookup (normalizeFoodLabel key)).isSome)
    (hc : COUNTABLE_FOODS.lookup (normalizeFoodLabel key) = some w) :
    (calculateNutrition key count r).portion_grams = (count : ℚ) * w ∧
    (calculateNutrition key count r).portion_size = toString count ++ " pieces" := by
  obtain ⟨p, hp⟩ := Option.isSome_iff_exists.mp hn
  simp [calculateNutrition, hp, hc]

theorem calcNutrition_areaBased (key : String) (p : NutritionInfo) (count : ℕ) (r : ℚ)
    (hp : NUTRITION_DATA.lookup (normalizeFoodLabel key) = some p)
    (hc : COUNTABLE_FOODS.lookup (normalizeFoodLabel key) = none) :
    (calculateNutrition key count r).portion_grams =
      (PORTION_GRAMS.lookup (getPortionFromArea r)).getD 0 ∧
    (calculateNutrition key count r).portion_size = getPortionFromArea r ++ " portion" := by
  simp [calculateNutrition, hp, hc]

theorem calcNutrition_matched (key : String) (p : NutritionInfo) (count : ℕ) (r : ℚ)
    (hp : NUTRITION_DATA.lookup (normalizeFoodLabel key) = some p) :
    (calculateNutrition key count r).calories =
      jsRound (p.calories_per_100g * ((calculateNutrition key count r).portion_grams / 100)) ∧
    (calculateNutrition key count r).protein =
      round1 (p.protein_g * ((calculateNutrition key count r).portion_grams / 100)) ∧
    (calculateNutrition key count r).carbs =
      round1 (p.carbs_g * ((calculateNutrition key count r).portion_grams / 100)) ∧
    (calculateNutrition key count r).fat =
      round1 (p.fat_g * ((calculateNutrition key count r).portion_grams / 100)) := by
  cases hc : COUNTABLE_FOODS.lookup (normalizeFoodLabel key) <;>
    simp [calculateNutrition, hp, hc]

theorem calcNutrition_matched_confidence (key : String) (p : NutritionInfo) (count : ℕ)
    (r : ℚ) (hp : NUTRITION_DATA.lookup (normalizeFoodLabel key) = some p) :
    (calculateNutrition key count r).confidence = 85/100 := by
  cases hc : COUNTABLE_FOODS.lookup (normalizeFoodLabel key) <;>
    simp [calculateNutrition, hp, hc]

theorem countable_keys_normalized : ∀ (key : String) (w : ℚ), (key, w) ∈ COUNTABLE_FOODS →
    normalizeFoodLabel key = key ∧ (NUTRITION_DATA.lookup key).isSome ∧
    COUNTABLE_FOODS.lookup key = some w := by
  intro key w hmem
  simp only [COUNTABLE_FOODS] at hmem
  fin_cases hmem <;>
    exact ⟨by decide, by simp [NUTRITION_DATA, List.lookup], by simp [COUNTABLE_FOODS, List.lookup]⟩

theorem mem_normalizeDetections (ds : List Detection) (g : DetectionGroup)
    (hg : g ∈ normalizeDetections ds) :
    g.count = (entriesFor ds g.food_key).length ∧
    g.avg_confidence = avgConf (entriesFor ds g.food_key) ∧
    g.max_area_ratio = maxArea (entriesFor ds g.food_key) := by
  simp only [normalizeDetections, List.mem_map] at hg
  obtain ⟨p, hp, rfl⟩ := hg
  have hme : (p.1, p.2) ∈ groupDetections ds := by
    rw [Prod.mk.eta]
    exact hp
  have := mem_groupDetections ds p.1 p.2 hme
  exact ⟨by rw [← this], by rw [← this], by rw [← this]⟩

/-! Claim theorems. -/

/-- C6: for every area_ratio in [0,1] the bucket boundaries are
ratio < 0.10 → Small, 0.10 ≤ ratio < 0.25 → Medium, 0.25 ≤ ratio < 0.50 →
Large, ratio ≥ 0.50 → Very Large; a boundary ratio goes to the higher
bucket (bucket at 0.10 is Medium, at 0.099 Small); the bucket weights are
Small=75, Medium=100, Large=150, Very Large=200; and an area-based matched
food is given exactly those grams with description "bucket portion". -/
theorem C6_area_buckets (r : ℚ) (h0 : 0 ≤ r) (h1 : r ≤ 1) :
    (r < 1/10 → getPortionFromArea r = "Small") ∧
    (1/10 ≤ r ∧ r < 1/4 → getPortionFromArea r = "Medium") ∧
    (1/4 ≤ r ∧ r < 1/2 → getPortionFromArea r = "Large") ∧
    (1/2 ≤ r → getPortionFromArea r = "Very Large") ∧
    getPortionFromArea (1/10) = "Medium" ∧
    getPortionFromArea (99/1000) = "Small" ∧
    List.lookup "Small" PORTION_GRAMS = some 75 ∧
    List.lookup "Medium" PORTION_GRAMS = some 100 ∧
    List.lookup "Large" PORTION_GRAMS = some 150 ∧
    List.lookup "Very Large" PORTION_GRAMS = some 200 ∧
    (∀ (key : String) (p : NutritionInfo) (count : ℕ),
      NUTRITION_DATA.lookup (normalizeFoodLabel key) = some p →
      COUNTABLE_FOODS.lookup (normalizeFoodLabel key) = none →
      (calculateNutrition key count r).portion_size = getPortionFromArea r ++ " portion" ∧
      (calculateNutrition key count r).portion_grams =
        (PORTION_GRAMS.lookup (getPortionFromArea r)).getD 0) := by
  refine ⟨fun h => ?_, fun h => ?_, fun h => ?_, fun h => ?_,
    by norm_num [getPortionFromArea], by norm_num [getPortionFromArea],
    by simp [PORTION_GRAMS, List.lookup], by simp [PORTION_GRAMS, List.lookup],
    by simp [PORTION_GRAMS, List.lookup], by simp [PORTION_GRAMS, List.lookup],
    fun key p count hp hc => ⟨(calcNutrition_areaBased key p count r hp hc).2,
      (calcNutrition_areaBased key p count r hp hc).1⟩⟩
  · simp only [getPortionFromArea]
    rw [if_pos h]
  · obtain ⟨ha, hb⟩ := h
    simp only [getPortionFromArea]
    rw [if_neg (not_lt.mpr ha), if_pos hb]
  · obtain ⟨ha, hb⟩ := h
    simp only [getPortionFromArea]
    rw [if_neg (not_lt.mpr (by linarith)), if_neg (not_lt.mpr ha), if_pos hb]
  · simp only [getPortionFromArea]
    rw [if_neg (not_lt.mpr (by linarith)), if_neg (not_lt.mpr (by linarith)),
      if_neg (not_lt.mpr h)]

theorem C6_area_buckets_witness :
    getPortionFromArea (1/10) = "Medium" ∧ getPortionFromArea (99/1000) = "Small" :=
  ⟨(C6_area_buckets (1/10) (by norm_num) (by norm_num)).2.2.2.2.1,
   (C6_area_buckets (1/10) (by norm_num) (by norm_num)).2.2.2.2.2.1⟩

/-- C7: for every key in the countable unit-weight table and every count ≥ 1,
the estimated grams are count * unit_weight with description
"count pieces"; in particular idli (unit weight 40) with count 3 gives 120
grams and "3 pieces". -/
theorem C7_countable_grams (key : String) (w : ℚ) (hmem : (key, w) ∈ COUNTABLE_FOODS)
    (count : ℕ) (hcount : 1 ≤ count) (r : ℚ) :
    (calculateNutrition key count r).portion_grams = (count : ℚ) * w ∧
    (calculateNutrition key count r).portion_size = toString count ++ " pieces" := by
  obtain ⟨h1, h2, h3⟩ := countable_keys_normalized key w hmem
  exact calcNutrition_countable key w count r (by rw [h1]; exact h2) (by rw [h1]; exact h3)

theorem C7_countable_grams_witness :
    (calculateNutrition "idli" 3 (3/10)).portion_grams = 120 ∧
    (calculateNutrition "idli" 3 (3/10)).portion_size = "3 pieces" := by
  have h := C7_countable_grams "idli" 40 (by simp [COUNTABLE_FOODS]) 3 (by norm_num) (3/10)
  exact ⟨by rw [h.1]; norm_num, by rw [h.2]; decide⟩

/-- C8: for every matched food the estimator computes
multiplier = grams / 100, calories = halfUpRound(calories_per_100g *
multiplier), and each macro rounded to one decimal from
value_per_100g * multiplier; for dal with area_ratio 0.3 this yields
grams=150, calories=174, protein=13.5, carbs=30.0, fat=1.5. -/
theorem C8_macro_rounding (key : String) (p : NutritionInfo) (count : ℕ) (r : ℚ)
    (hp : NUTRITION_DATA.lookup (normalizeFoodLabel key) = some p) :
    ((calculateNutrition key count r).calories =
        jsRound (p.calories_per_100g * ((calculateNutrition key count r).portion_grams / 100)) ∧
      (calculateNutrition key count r).protein =
        round1 (p.protein_g * ((calculateNutrition key count r).portion_grams / 100)) ∧
      (calculateNutrition key count r).carbs =
        round1 (p.carbs_g * ((calculateNutrition key count r).portion_grams / 100)) ∧
      (calculateNutrition key count r).fat =
        round1 (p.fat_g * ((calculateNutrition key count r).portion_grams / 100))) ∧
    calculateNutrition "dal" 1 (3/10) =
      ⟨"dal", "Large portion", 150, 174, 27/2, 30, 3/2, 17/20⟩ := by
  refine ⟨calcNutrition_matched key p count r hp, ?_⟩
  have hn : normalizeFoodLabel "dal" = "dal" := by decide
  have hb : getPortionFromArea (3/10) = "Large" := by norm_num [getPortionFromArea]
  have ha : ("Large" ++ " portion" : String) = "Large portion" := by decide
  simp [calculateNutrition, hn, hb, ha, NUTRITION_DATA, COUNTABLE_FOODS, PORTION_GRAMS,
    List.lookup, FoodItem.mk.injEq]
  norm_num [jsRound, round1]

theorem C8_macro_rounding_witness :
    ((calculateNutrition "dal" 1 (3/10)).calories =
        jsRound (116 * ((calculateNutrition "dal" 1 (3/10)).portion_grams / 100)) ∧
      (calculateNutrition "dal" 1 (3/10)).protein =
        round1 (9 * ((calculateNutrition "dal" 1 (3/10)).portion_grams / 100)) ∧
      (calculateNutrition "dal" 1 (3/10)).carbs =
        round1 (20 * ((calculateNutrition "dal" 1 (3/10)).portion_grams / 100)) ∧
      (calculateNutrition "dal" 1 (3/10)).fat =
        round1 (1 * ((calculateNutrition "dal" 1 (3/10)).portion_grams / 100))) ∧
    calculateNutrition "dal" 1 (3/10) =
      ⟨"dal", "Large portion", 150, 174, 27/2, 30, 3/2, 17/20⟩ :=
  C8_macro_rounding "dal" ⟨116, 20, 9, 1, 30, "Low"⟩ 1 (3/10) (by
    rw [show normalizeFoodLabel "dal" = "dal" from by decide]
    simp [NUTRITION_DATA, List.lookup])

/-- C3 (amended): for every label whose normalized key is absent from the
nutrition table, the estimator emits exactly the fixed default item
(portion "1 portion", 100 g, 200 kcal, protein 10, carbs 30, fat 5,
confidence 0.5) with name equal to the label the estimator was given; in
the pipeline that label is the lowercased detection label, not the
original-cased one. -/
theorem C3_unknown_default (foodName : String) (count : ℕ) (r : ℚ)
    (h : NUTRITION_DATA.lookup (normalizeFoodLabel foodName) = none) :
    calculateNutrition foodName count r =
      ⟨foodName, "1 portion", 100, 200, 10, 30, 5, 1/2⟩ := by
  simp [calculateNutrition, h]

theorem C3_unknown_default_witness :
    calculateNutrition "pho" 1 (3/10) = ⟨"pho", "1 portion", 100, 200, 10, 30, 5, 1/2⟩ :=
  C3_unknown_default "pho" 1 (3/10) (by
    rw [show normalizeFoodLabel "pho" = "pho" from by decide]
    simp [NUTRITION_DATA, List.lookup])

/-- C3 counterexample: the pipeline lowercases the detection label before
estimation, so for the unknown detection label "Pho" the returned item's
name is "pho", not the original (non-normalized) detection label. -/
theorem C3_name_counterexample :
    (pipelineFoods [⟨"Pho", 9/10, 3/10⟩]).map FoodItem.name = ["pho"] ∧
    ("pho" : String) ≠ "Pho" := by
  constructor
  · have hk : detKey ⟨"Pho", 9/10, 3/10⟩ = "pho" := by decide
    simp [pipelineFoods, groupDetections, groupGo, addDetection, hk, detEntry,
      mkItemFromGroup, calcNutrition_name]
  · decide

/-- C1: for a matched food the estimator's intermediate confidence is the
constant 0.85, but the item built for a detection group carries the
group's average confidence, and the pipeline output is exactly the
per-group items — so the 0.85 constant is overwritten before return and
the returned confidence is the group average. -/
theorem C1_matched_confidence (ds : List Detection) (key : String) (members : List GEntry)
    (p : NutritionInfo) (hp : NUTRITION_DATA.lookup (normalizeFoodLabel key) = some p) :
    (calculateNutrition key members.length (maxArea members)).confidence = 85/100 ∧
    (mkItemFromGroup (key, members)).confidence = avgConf members ∧
    pipelineFoods ds = (groupDetections ds).map mkItemFromGroup := by
  refine ⟨calcNutrition_matched_confidence key p members.length (maxArea members) hp, ?_, rfl⟩
  simp [mkItemFromGroup]

theorem C1_matched_confidence_witness :
    (calculateNutrition "dal" (List.length [(⟨9/10, 3/10⟩ : GEntry)])
        (maxArea [(⟨9/10, 3/10⟩ : GEntry)])).confidence = 85/100 ∧
    (mkItemFromGroup ("dal", [(⟨9/10, 3/10⟩ : GEntry)])).confidence =
      avgConf [(⟨9/10, 3/10⟩ : GEntry)] ∧
    pipelineFoods [] = (groupDetections []).map mkItemFromGroup :=
  C1_matched_confidence [] "dal" [⟨9/10, 3/10⟩] ⟨116, 20, 9, 1, 30, "Low"⟩ (by
    rw [show normalizeFoodLabel "dal" = "dal" from by decide]
    simp [NUTRITION_DATA, List.lookup])

/-- C10: in the full pipeline the confidence of every returned item equals
its detection group's average confidence — the orchestrator overwrites the
estimator's confidence unconditionally — so even for an unknown food
("Pho") the default confidence 0.5 is replaced by the group average
(here 0.9). -/
theorem C10_confidence_overwrite :
    (∀ ds : List Detection, (pipelineFoods ds).map FoodItem.confidence =
        (groupDetections ds).map (fun p => avgConf p.2)) ∧
    pipelineFoods [⟨"Pho", 9/10, 3/10⟩] =
      [⟨"pho", "1 portion", 100, 200, 10, 30, 5, 9/10⟩] := by
  constructor
  · intro ds
    rw [pipelineFoods, List.map_map]
    simp [Function.comp, mkItemFromGroup]
  · have hk : detKey ⟨"Pho", 9/10, 3/10⟩ = "pho" := by decide
    have hn : normalizeFoodLabel "pho" = "pho" := by decide
    simp [pipelineFoods, groupDetections, groupGo, addDetection, hk, detEntry,
      mkItemFromGroup, calculateNutrition, hn, NUTRITION_DATA, List.lookup,
      avgConf, maxArea, FoodItem.mk.injEq]

/-- C4 counterexample: a successful external response whose detections
array is present but empty passes the JS truthiness check and is returned
as-is, so the adapter's result is not always non-empty. -/
theorem C4_empty_counterexample :
    runCNNDetection (PyResponse.payload true (some [])) = [] := rfl

/-- C4 (amended): on every failure (network error, non-success status,
malformed JSON, success flag false, missing detections field) the adapter
returns the fixed non-empty three-item fallback list (Idli 0.92/0.15,
Sambar 0.87/0.35, Chapathi 0.78/0.20) and never raises; but a successful
response with an empty detections array is passed through, so the result
is non-empty only in the failure cases. -/
theorem C4_fallback (status : ℕ) (dsOpt : Option (List Detection)) (ds : List Detection) :
    runCNNDetection PyResponse.netError = mockCNNDetection ∧
    runCNNDetection (PyResponse.notOk status) = mockCNNDetection ∧
    runCNNDetection PyResponse.badJson = mockCNNDetection ∧
    runCNNDetection (PyResponse.payload false dsOpt) = mockCNNDetection ∧
    runCNNDetection (PyResponse.payload true none) = mockCNNDetection ∧
    runCNNDetection (PyResponse.payload true (some ds)) = ds ∧
    mockCNNDetection =
      [⟨"Idli", 92/100, 15/100⟩, ⟨"Sambar", 87/100, 35/100⟩, ⟨"Chapathi", 78/100, 20/100⟩] ∧
    mockCNNDetection ≠ [] := by
  refine ⟨rfl, rfl, rfl, ?_, rfl, rfl, rfl, by simp [mockCNNDetection]⟩
  cases dsOpt <;> rfl

/-- C5: the orchestrator is total and never yields a malformed response:
every input produces either a success payload with a foods list or an
error response, and an exception from `req.json()` is converted into
status 500 with success false and the error's message. -/
theorem C5_serve_total (now : ℕ) (req : ReqBody) (ext : PyResponse) (msg : String) :
    wellFormedResp (serveHandler now req ext) ∧
    serveHandler now (ReqBody.parseError msg) ext = ⟨500, some false, some msg, none⟩ := by
  refine ⟨?_, rfl⟩
  cases req with
  | parseError m =>
    exact Or.inr (by simp [serveHandler])
  | body img =>
    cases img with
    | none => exact Or.inr (by simp [serveHandler])
    | some s =>
      by_cases hs : s = ""
      · exact Or.inr (by simp [serveHandler, hs])
      · exact Or.inl (by simp [serveHandler, hs])

/-- C2 (amended): the normalizer groups detections by the lowercased
label only (no trimming and no space-to-underscore replacement — those
happen later, inside the nutrition lookup), emits groups in
first-occurrence order, and per group sets count to the number of
members, avg_confidence to the mean of their confidences and
max_area_ratio to the maximum of their area ratios; the concrete
Idli/Idli/Sambar example yields exactly the two stated groups. -/
theorem C2_normalizer (ds : List Detection) :
    (normalizeDetections ds).map DetectionGroup.food_key = occKeys [] ds ∧
    (∀ g ∈ normalizeDetections ds,
      g.count = (entriesFor ds g.food_key).length ∧
      g.avg_confidence = avgConf (entriesFor ds g.food_key) ∧
      g.max_area_ratio = maxArea (entriesFor ds g.food_key)) ∧
    normalizeDetections
        [⟨"Idli", 92/100, 15/100⟩, ⟨"Idli", 88/100, 20/100⟩, ⟨"Sambar", 87/100, 35/100⟩] =
      [⟨"idli", 2, 9/10, 20/100⟩, ⟨"sambar", 1, 87/100, 35/100⟩] := by
  refine ⟨?_, fun g hg => mem_normalizeDetections ds g hg, ?_⟩
  · rw [normalizeDetections, List.map_map, ← keys_groupDetections]
    rfl
  · have h1 : detKey ⟨"Idli", 92/100, 15/100⟩ = "idli" := by decide
    have h2 : detKey ⟨"Idli", 88/100, 20/100⟩ = "idli" := by decide
    have h3 : detKey ⟨"Sambar", 87/100, 35/100⟩ = "sambar" := by decide
    simp [normalizeDetections, groupDetections, groupGo, addDetection, h1, h2, h3,
      detEntry, avgConf, maxArea, DetectionGroup.mk.injEq]
    norm_num [max_def]

/-- C2 counterexample: the spec's claimed key function (lowercase, trim,
spaces to underscores) identifies the labels " Idli" and "Idli", but the
code groups by the lowercased label only, so these two detections land in
two distinct groups with untrimmed keys — not one group as the claim
implies. -/
theorem C2_key_counterexample :
    specNormalizeKey " Idli" = specNormalizeKey "Idli" ∧
    (normalizeDetections [⟨" Idli", 9/10, 1/10⟩, ⟨"Idli", 8/10, 1/5⟩]).map
        DetectionGroup.food_key = [" idli", "idli"] ∧
    (normalizeDetections [⟨" Idli", 9/10, 1/10⟩, ⟨"Idli", 8/10, 1/5⟩]).length = 2 := by
  exact ⟨by decide, rfl, rfl⟩

/-- C9: grouping aggregates are order-independent — for any permutation of
the detection list, groups with the same key have identical
avg_confidence and max_area_ratio (mean and maximum do not depend on
member order). -/
theorem C9_perm_invariant (ds ds' : List Detection) (hperm : ds.Perm ds')
    (g g' : DetectionGroup) (hg : g ∈ normalizeDetections ds)
    (hg' : g' ∈ normalizeDetections ds') (hkey : g.food_key = g'.food_key) :
    g.avg_confidence = g'.avg_confidence ∧ g.max_area_ratio = g'.max_area_ratio := by
  obtain ⟨-, ha, hm⟩ := mem_normalizeDetections ds g hg
  obtain ⟨-, ha', hm'⟩ := mem_normalizeDetections ds' g' hg'
  have hE : (entriesFor ds g.food_key).Perm (entriesFor ds' g.food_key) :=
    (hperm.filter (fun d => detKey d == g.food_key)).map detEntry
  rw [← hkey] at ha' hm'
  exact ⟨ha.trans ((avgConf_perm _ _ hE).trans ha'.symm),
    hm.trans ((maxArea_perm _ _ hE).trans hm'.symm)⟩

theorem C9_perm_invariant_witness :
    (⟨"idli", 2, 9/10, 1/5⟩ : DetectionGroup).avg_confidence =
      (⟨"idli", 2, 9/10, 1/5⟩ : DetectionGroup).avg_confidence ∧
    (⟨"idli", 2, 9/10, 1/5⟩ : DetectionGroup).max_area_ratio =
      (⟨"idli", 2, 9/10, 1/5⟩ : DetectionGroup).max_area_ratio :=
  C9_perm_invariant
    [⟨"Idli", 92/100, 15/100⟩, ⟨"Idli", 88/100, 20/100⟩]
    [⟨"Idli", 88/100, 20/100⟩, ⟨"Idli", 92/100, 15/100⟩]
    (List.Perm.swap (⟨"Idli", 88/100, 20/100⟩ : Detection) ⟨"Idli", 92/100, 15/100⟩ [])
    ⟨"idli", 2, 9/10, 1/5⟩ ⟨"idli", 2, 9/10, 1/5⟩
    (by
      have h1 : detKey ⟨"Idli", 92/100, 15/100⟩ = "idli" := by decide
      have h2 : detKey ⟨"Idli", 88/100, 20/100⟩ = "idli" := by decide
      simp [normalizeDetections, groupDetections, groupGo, addDetection, h1, h2,
        detEntry, avgConf, maxArea, DetectionGroup.mk.injEq]
      norm_num [max_def])
    (by
      have h1 : detKey ⟨"Idli", 92/100, 15/100⟩ = "idli" := by decide
      have h2 : detKey ⟨"Idli", 88/100, 20/100⟩ = "idli" := by decide
      simp [normalizeDetections, groupDetections, groupGo, addDetection, h1, h2,
        detEntry, avgConf, maxArea, DetectionGroup.mk.injEq]
      norm_num [max_def])
    rfl
